import Mathlib

/-!
Shallow embedding of the differential-pressure flow reference calculator
(`src/test/resources/diffpressure_reference.py`).

Python floats are modelled as real numbers.  An operation that raises a
Python exception is modelled as `Option.none`:
* float division by zero raises `ZeroDivisionError`;
* `0.0 ** negative` raises `ZeroDivisionError`;
* a negative base with a non-integral exponent produces a `complex` value,
  which makes the later `max(numerator, 0.0)` comparison raise `TypeError`,
  so the whole call raises; the model returns `none` at the power already
  (the observable outcome, an exception, is the same).

`math.sqrt` is only ever applied to clamped, nonnegative arguments in this
program, so it is modelled by the total `Real.sqrt`.
-/

namespace DiffPressure

noncomputable section
open Classical

/-- Python float division `a / b`: raises `ZeroDivisionError` when `b == 0.0`,
modelled as `none`; otherwise the real quotient. -/
def pyDiv (a b : ℝ) : Option ℝ := if b = 0 then none else some (a / b)

/-- Python float power `a ** b`: `0.0 ** negative` raises; a negative base
with a non-integral exponent yields a complex number that makes the caller
raise, modelled as `none`.  Otherwise the value agrees with the real power
(for a negative base and an integral exponent, `Real.rpow` coincides with
the integer power, matching Python). -/
def pyPow (a b : ℝ) : Option ℝ :=
  if a = 0 ∧ b < 0 then none
  else if a < 0 ∧ ∀ n : ℤ, b ≠ (n : ℝ) then none
  else some (a ^ b)

/-- Default relative tolerance of `math.isclose` (`rel_tol = 1e-9`). -/
def relTol : ℝ := 1 / 1000000000

/-- `math.isclose(a, b)` with default tolerances (`rel_tol = 1e-9`,
`abs_tol = 0.0`): `abs(a-b) <= max(rel_tol * max(abs(a), abs(b)), abs_tol)`. -/
def isclose (a b : ℝ) : Prop := |a - b| ≤ max (relTol * max |a| |b|) 0

/-- `calc_venturi(dp, p, rho, kappa, D, d, C)` from the reference script,
following Python left-to-right evaluation order.  `beta = d / D` raises when
`D == 0`; `tau = p / (p + dp)` raises when `p + dp == 0`; if
`math.isclose(tau, 1.0)` the function returns `0.0`; otherwise the
expansibility numerator is computed with fallible divisions and powers, the
two square roots are clamped (`max(..., 0.0)`), and the mass flow in kg/h is
returned. -/
def calc_venturi (dp p rho kappa D d C : ℝ) : Option ℝ :=
  (pyDiv d D).bind fun beta =>
  (pyDiv p (p + dp)).bind fun tau =>
  if isclose tau 1 then some 0 else
  (pyDiv 2 kappa).bind fun e1 =>
  (pyPow tau e1).bind fun tau2k =>
  (pyDiv (kappa * tau2k) (kappa - 1)).bind fun n1 =>
  (pyDiv (n1 * (1 - beta ^ 4)) (1 - beta ^ 4 * tau2k)).bind fun n2 =>
  (pyDiv (kappa - 1) kappa).bind fun e2 =>
  (pyPow tau e2).bind fun tpow =>
  (pyDiv (n2 * (1 - tpow)) (1 - tau)).bind fun n3 =>
  (pyDiv C (Real.sqrt (max (1 - beta ^ 4) (1 / 10 ^ 30)))).bind fun q =>
  some (q * Real.sqrt (max n3 0) * Real.pi / 4 * d * d *
    Real.sqrt (max (dp * rho * 2) 0) * 3600)

/-- `calc_simplified(dp, rho, Cv) = Cv * math.sqrt(max(dp * rho, 0.0))`. -/
def calc_simplified (dp rho Cv : ℝ) : ℝ :=
  Cv * Real.sqrt (max (dp * rho) 0)

/-- The closed-form value `calc_venturi` computes on its non-guard success
path (obtained by substituting every intermediate Python variable). -/
def venturiVal (dp p rho kappa D d C : ℝ) : ℝ :=
  C / Real.sqrt (max (1 - (d / D) ^ 4) (1 / 10 ^ 30)) *
    Real.sqrt (max (kappa * (p / (p + dp)) ^ (2 / kappa) / (kappa - 1) *
      (1 - (d / D) ^ 4) / (1 - (d / D) ^ 4 * (p / (p + dp)) ^ (2 / kappa)) *
      (1 - (p / (p + dp)) ^ ((kappa - 1) / kappa)) / (1 - p / (p + dp))) 0) *
    Real.pi / 4 * d * d * Real.sqrt (max (dp * rho * 2) 0) * 3600

end

/-! ## Command-line surface

`main()` builds an `argparse` parser with two subcommands, `venturi` (seven
required float flags) and `simplified` (three), computes the selected flow
and prints it with `f"{value:.12f}"`.  The `argparse` and float-conversion
behaviour used by this configuration is modelled below:

* the first token selects the subcommand (required; anything else is a usage
  error, exit status 2, message on stderr, nothing on stdout);
* each `--flag value` pair is parsed left to right; an unknown token, a flag
  without a value, or an unconvertible value is a usage error;
* a repeated flag is NOT an error: `store` overwrites, the last value wins;
* after pair parsing, any missing required flag is a usage error;
* `float()` is modelled on plain signed decimal literals (the only form the
  harness uses); richer Python forms (exponents, `inf`/`nan`, underscores,
  surrounding whitespace) are outside the model;
* an uncaught exception from the calculation prints a traceback on stderr
  and exits with status 1, with nothing on stdout.
-/

/-- The numeric value of a parsed decimal literal, kept symbolically
(sign, integer part, fraction digits and their count), so that the parser
is computable by kernel reduction; the value it denotes is
`±(ip + fp / 10^fdigits)`. -/
structure PyFloatVal where
  neg : Bool
  ip : ℕ
  fp : ℕ
  fdigits : ℕ
  deriving DecidableEq

/-- The real number a parsed literal denotes. -/
noncomputable def PyFloatVal.toReal (v : PyFloatVal) : ℝ :=
  (if v.neg then -1 else 1) * ((v.ip : ℝ) + (v.fp : ℝ) / 10 ^ v.fdigits)

/-- A parsed command: the tagged union of the two flow models. -/
inductive Cmd where
  | venturi (dp p rho kappa D d C : PyFloatVal)
  | simplified (dp rho Cv : PyFloatVal)
  deriving DecidableEq

/-- The CLI usage-error cases. -/
inductive PErr where
  | noCommand
  | badCommand (c : String)
  | missingFlag (cmd flag : String)
  | needsValue (flag : String)
  | badValue (flag v : String)
  | unknownArg (a : String)
  deriving DecidableEq

/-- Value of a list of decimal digit characters. -/
def digitsVal (cs : List Char) : ℕ :=
  cs.foldl (fun a c => 10 * a + (c.toNat - 48)) 0

/-- Python `float()` on a plain signed decimal literal: optional sign,
digits, optional fraction part; anything else fails (raises `ValueError`,
which `argparse` turns into a usage error). -/
def pyFloat (s : String) : Option PyFloatVal :=
  match s.data with
  | [] => none
  | cs =>
    let sgnBody : Bool × List Char :=
      match cs with
      | '-' :: t => (true, t)
      | '+' :: t => (false, t)
      | t => (false, t)
    let neg := sgnBody.1
    let body := sgnBody.2
    let ip := body.takeWhile Char.isDigit
    let rest := body.dropWhile Char.isDigit
    match rest with
    | [] => if ip.isEmpty then none else some ⟨neg, digitsVal ip, 0, 0⟩
    | '.' :: t =>
      let fp := t.takeWhile Char.isDigit
      let rest2 := t.dropWhile Char.isDigit
      if rest2.isEmpty && !(ip.isEmpty && fp.isEmpty) then
        some ⟨neg, digitsVal ip, digitsVal fp, fp.length⟩
      else none
    | _ => none

/-- Parse the `--flag value` pairs after the subcommand.  Later occurrences
of a flag are kept as later list entries (the lookup takes the last one). -/
def parsePairs (allowed : List String) (ts : List String) :
    Except PErr (List (String × PyFloatVal)) :=
  match ts with
  | [] => Except.ok []
  | f :: rest =>
    if f ∈ allowed then
      match rest with
      | [] => Except.error (PErr.needsValue f)
      | v :: rest2 =>
        match pyFloat v with
        | some q =>
          match parsePairs allowed rest2 with
          | Except.ok l => Except.ok ((f, q) :: l)
          | Except.error e => Except.error e
        | none => Except.error (PErr.badValue f v)
    else Except.error (PErr.unknownArg f)

/-- Last assigned value of a flag (`argparse` `store`: last occurrence wins). -/
def lastVal (l : List (String × PyFloatVal)) (f : String) : Option PyFloatVal :=
  l.foldl (fun acc pr => if pr.1 = f then some pr.2 else acc) none

/-- A required flag: missing after pair parsing is a usage error. -/
def reqFlag (cmd : String) (l : List (String × PyFloatVal)) (f : String) :
    Except PErr PyFloatVal :=
  match lastVal l f with
  | some q => Except.ok q
  | none => Except.error (PErr.missingFlag cmd f)

def venturiFlags : List String :=
  ["--dp", "--p", "--rho", "--kappa", "--D", "--d", "--C"]

def simplifiedFlags : List String := ["--dp", "--rho", "--Cv"]

/-- The full argument parse: subcommand plus its required numeric flags. -/
def parseArgs (argv : List String) : Except PErr Cmd :=
  match argv with
  | [] => Except.error PErr.noCommand
  | c :: rest =>
    if c = "venturi" then do
      let l ← parsePairs venturiFlags rest
      let dp ← reqFlag c l "--dp"
      let p ← reqFlag c l "--p"
      let rho ← reqFlag c l "--rho"
      let kappa ← reqFlag c l "--kappa"
      let dia ← reqFlag c l "--D"
      let d ← reqFlag c l "--d"
      let cc ← reqFlag c l "--C"
      return Cmd.venturi dp p rho kappa dia d cc
    else if c = "simplified" then do
      let l ← parsePairs simplifiedFlags rest
      let dp ← reqFlag c l "--dp"
      let rho ← reqFlag c l "--rho"
      let cv ← reqFlag c l "--Cv"
      return Cmd.simplified dp rho cv
    else Except.error (PErr.badCommand c)

/-- The descriptive part of an `argparse` usage error. -/
def detail : PErr → String
  | PErr.noCommand => "the following arguments are required: command"
  | PErr.badCommand c => "argument command: invalid choice: " ++ c
  | PErr.missingFlag cmd f =>
      cmd ++ ": the following arguments are required: " ++ f
  | PErr.needsValue f => "argument " ++ f ++ ": expected one argument"
  | PErr.badValue f v => "argument " ++ f ++ ": invalid float value: " ++ v
  | PErr.unknownArg a => "unrecognized arguments: " ++ a

/-- The stderr text of a usage error. -/
def renderErr (e : PErr) : String := "error: " ++ detail e ++ "\n"

/-- The stderr text when the flow calculation raises. -/
def tracebackMsg : String :=
  "Traceback (most recent call last): unhandled exception in flow calculation\n"

/-- Exactly `k` decimal digit characters of `n % 10^k`, most significant
first (zero-padded): the fraction part of `%.12f`-style output. -/
def fixedDigits : ℕ → ℕ → List Char
  | 0, _ => []
  | k + 1, n => fixedDigits k (n / 10) ++ [Nat.digitChar (n % 10)]

/-- Decimal digits of `n` (fuel-indexed helper; `fuel > n` suffices). -/
def natDigitsAux : ℕ → ℕ → List Char
  | 0, _ => []
  | fuel + 1, n =>
    if n < 10 then [Nat.digitChar n]
    else natDigitsAux fuel (n / 10) ++ [Nat.digitChar (n % 10)]

/-- Decimal digits of `n`, most significant first, at least one digit. -/
def natDigits (n : ℕ) : List Char := natDigitsAux (n + 1) n

/-- `f"{x:.12f}"`: fixed-point output with exactly 12 digits after the
decimal point.  Rounding is to the nearest multiple of `10^-12`; Python
rounds the binary double to even on decimal ties, but a binary double is
never an exact decimal tie at 12 places, so the policies agree on every
float input. -/
noncomputable def format12 (x : ℝ) : String :=
  (if round (x * 10 ^ 12) < 0 then "-" else "") ++
    String.mk (natDigits ((round (x * 10 ^ 12)).natAbs / 10 ^ 12)) ++ "." ++
    String.mk (fixedDigits 12 ((round (x * 10 ^ 12)).natAbs % 10 ^ 12))

/-- Evaluate a parsed command with the flow model core. -/
noncomputable def evalCmd : Cmd → Option ℝ
  | Cmd.venturi dp p rho kappa dia d cc =>
      calc_venturi dp.toReal p.toReal rho.toReal kappa.toReal dia.toReal
        d.toReal cc.toReal
  | Cmd.simplified dp rho cv =>
      some (calc_simplified dp.toReal rho.toReal cv.toReal)

/-- The whole program: exit status, stdout, stderr. -/
noncomputable def main (argv : List String) : ℕ × String × String :=
  match parseArgs argv with
  | Except.error e => (2, "", renderErr e)
  | Except.ok c =>
    match evalCmd c with
    | none => (1, "", tracebackMsg)
    | some v => (0, format12 v ++ "\n", "")

/-- A string is a fixed-point decimal with 12 digits after the point: some
text without a point, then `.`, then exactly 12 digit characters, and no
exponent marker or newline anywhere. -/
def isFixed12 (s : String) : Prop :=
  (∃ a b : String, s = a ++ "." ++ b ∧ b.length = 12 ∧
    (∀ c ∈ b.data, c.isDigit = true) ∧ ('.' ∉ a.data)) ∧
  ∀ c ∈ s.data, c ≠ 'e' ∧ c ≠ 'E' ∧ c ≠ '\n'

deriving instance DecidableEq for Except

/-! ## Theorems -/

theorem someBind {α β : Type} (a : α) (f : α → Option β) :
    (some a).bind f = f a := rfl

theorem noneBind {α β : Type} (f : α → Option β) :
    (Option.none : Option α).bind f = none := rfl

theorem pyDiv_of_ne {b : ℝ} (h : b ≠ 0) (a : ℝ) : pyDiv a b = some (a / b) := by
  unfold pyDiv
  rw [if_neg h]

theorem pyDiv_zero (a : ℝ) : pyDiv a 0 = none := by
  unfold pyDiv
  rw [if_pos rfl]

theorem pyPow_of_pos {a : ℝ} (h : 0 < a) (b : ℝ) : pyPow a b = some (a ^ b) := by
  have h1 : ¬(a = 0 ∧ b < 0) := fun hc => h.ne' hc.1
  have h2 : ¬(a < 0 ∧ ∀ n : ℤ, b ≠ (n : ℝ)) := fun hc => absurd h (asymm hc.1)
  unfold pyPow
  rw [if_neg h1, if_neg h2]

theorem pyPow_neg_none {a b : ℝ} (ha : a < 0) (hb : ∀ n : ℤ, b ≠ (n : ℝ)) :
    pyPow a b = none := by
  have h1 : ¬(a = 0 ∧ b < 0) := fun hc => ha.ne hc.1
  unfold pyPow
  rw [if_neg h1, if_pos ⟨ha, hb⟩]

theorem isclose_self (a : ℝ) : isclose a a := by
  unfold isclose
  rw [sub_self, abs_zero]
  exact le_max_right _ _

/-- C3: for every input, `calc_simplified(dp, rho, Cv)` equals
`Cv * sqrt(dp * rho)` when `dp * rho ≥ 0` and equals `0` when
`dp * rho < 0`; it is a total function (it never raises). -/
theorem calc_simplified_spec (dp rho Cv : ℝ) :
    (0 ≤ dp * rho → calc_simplified dp rho Cv = Cv * Real.sqrt (dp * rho)) ∧
    (dp * rho < 0 → calc_simplified dp rho Cv = 0) := by
  constructor
  · intro h
    unfold calc_simplified
    rw [max_eq_left h]
  · intro h
    unfold calc_simplified
    rw [max_eq_right h.le, Real.sqrt_zero, mul_zero]

/-- Witness for C3 at `dp = 1, rho = 1, Cv = 2` and `dp = -1, rho = 1, Cv = 2`. -/
theorem calc_simplified_spec_witness :
    calc_simplified 1 1 2 = 2 * Real.sqrt (1 * 1) ∧
    calc_simplified (-1) 1 2 = 0 :=
  ⟨(calc_simplified_spec 1 1 2).1 (by norm_num),
   (calc_simplified_spec (-1) 1 2).2 (by norm_num)⟩

/-- C10: `calc_simplified` is symmetric in its first two arguments, because
the result depends on them only through the product `dp * rho`. -/
theorem calc_simplified_symm (dp rho Cv : ℝ) :
    calc_simplified dp rho Cv = calc_simplified rho dp Cv := by
  unfold calc_simplified
  rw [mul_comm dp rho]

theorem calc_venturi_guard (dp p rho kappa D d C : ℝ) (hD : D ≠ 0)
    (hpd : p + dp ≠ 0) (hg : isclose (p / (p + dp)) 1) :
    calc_venturi dp p rho kappa D d C = some 0 := by
  simp only [calc_venturi, pyDiv_of_ne hD, pyDiv_of_ne hpd, someBind]
  rw [if_pos hg]

theorem not_isclose_one_of_far {a : ℝ} (h : 1 / 4 ≤ |a - 1|) (ha : |a| ≤ 4) :
    ¬ isclose a 1 := by
  intro hc
  unfold isclose relTol at hc
  have hm : max |a| |(1 : ℝ)| ≤ 4 := by
    rw [abs_one]
    exact max_le ha (by norm_num)
  have h2 : max (1 / 1000000000 * max |a| |(1 : ℝ)|) 0 ≤ 1 / 250000000 := by
    refine max_le ?_ (by norm_num)
    nlinarith [abs_nonneg a]
  linarith

theorem tau_ne_one_of_not_isclose {t : ℝ} (hg : ¬ isclose t 1) : t ≠ 1 :=
  fun h => hg (h ▸ isclose_self 1)

theorem sqrt_floor_ne (x : ℝ) :
    Real.sqrt (max x (1 / 10 ^ 30)) ≠ 0 := by
  have h : (0 : ℝ) < max x (1 / 10 ^ 30) :=
    lt_of_lt_of_le (by norm_num) (le_max_right _ _)
  exact (Real.sqrt_pos.mpr h).ne'

theorem calc_venturi_eval (dp p rho kappa D d C : ℝ) (hD : D ≠ 0)
    (hpd : p + dp ≠ 0) (hk0 : kappa ≠ 0) (hk1 : kappa - 1 ≠ 0)
    (htau : 0 < p / (p + dp))
    (hden : 1 - (d / D) ^ 4 * (p / (p + dp)) ^ (2 / kappa) ≠ 0)
    (hg : ¬ isclose (p / (p + dp)) 1) :
    calc_venturi dp p rho kappa D d C = some (venturiVal dp p rho kappa D d C) := by
  have hsub : 1 - p / (p + dp) ≠ 0 :=
    sub_ne_zero.mpr (Ne.symm (tau_ne_one_of_not_isclose hg))
  simp only [calc_venturi, pyDiv_of_ne hD, pyDiv_of_ne hpd, someBind]
  rw [if_neg hg]
  simp only [pyDiv_of_ne hk0, someBind, pyPow_of_pos htau, pyDiv_of_ne hk1,
    pyDiv_of_ne hden, pyDiv_of_ne hsub, pyDiv_of_ne (sqrt_floor_ne (1 - (d / D) ^ 4)),
    venturiVal]

/-- C1 counterexample: at `D = 0` (a degenerate input the claim says is
"defused to 0"), `calc_venturi` raises `ZeroDivisionError` at `beta = d / D`;
the model returns `none`, not `0`. -/
theorem venturi_D_zero_raises :
    calc_venturi 1 1 1 2 0 1 1 = none ∧ calc_venturi 1 1 1 2 0 1 1 ≠ some 0 := by
  have h : calc_venturi 1 1 1 2 0 1 1 = none := by
    simp only [calc_venturi, pyDiv_zero, noneBind]
  exact ⟨h, by rw [h]; exact fun hc => Option.noConfusion hc⟩

/-- C1 amended: `calc_venturi` returns a value (it does not raise, and in the
real-number model no NaN exists) on every input avoiding the genuine
singularities: `D ≠ 0`, `p + dp ≠ 0`, `kappa ∉ {0, 1}`, `tau = p/(p+dp) > 0`,
and `1 - (d/D)^4 * tau^(2/kappa) ≠ 0`.  On the singular regions (`D = 0`,
`p + dp = 0`, `kappa = 1`, negative `tau` with non-integral exponents) it
raises an exception instead of returning `0`. -/
theorem venturi_total_on_regular_domain (dp p rho kappa D d C : ℝ)
    (hD : D ≠ 0) (hpd : p + dp ≠ 0) (hk0 : kappa ≠ 0) (hk1 : kappa ≠ 1)
    (htau : 0 < p / (p + dp))
    (hden : 1 - (d / D) ^ 4 * (p / (p + dp)) ^ (2 / kappa) ≠ 0) :
    ∃ v, calc_venturi dp p rho kappa D d C = some v := by
  by_cases hg : isclose (p / (p + dp)) 1
  · exact ⟨0, calc_venturi_guard dp p rho kappa D d C hD hpd hg⟩
  · exact ⟨venturiVal dp p rho kappa D d C,
      calc_venturi_eval dp p rho kappa D d C hD hpd hk0
        (sub_ne_zero.mpr hk1) htau hden hg⟩

/-- Witness for the amended C1 at
`dp = 1, p = 1, rho = 1, kappa = 2, D = 2, d = 1, C = 1/2`. -/
theorem venturi_total_on_regular_domain_witness :
    ∃ v, calc_venturi 1 1 1 2 2 1 (1 / 2) = some v := by
  refine venturi_total_on_regular_domain 1 1 1 2 2 1 (1 / 2)
    (by norm_num) (by norm_num) (by norm_num) (by norm_num) (by norm_num) ?_
  rw [show (2 : ℝ) / 2 = 1 by norm_num, Real.rpow_one]
  norm_num

/-- C2 counterexample: with `0 < d < D`, `p > 0`, `kappa = 7/5 > 1`,
`rho ≥ 0`, `C = 1` but `dp = -2` (the claim leaves `dp` unconstrained),
`tau = 1/(1-2) = -1` is negative and `2/kappa = 10/7` is not an integer, so
`tau ** (2.0/kappa)` is complex and the call raises instead of returning a
finite nonnegative value. -/
theorem venturi_negative_tau_raises :
    calc_venturi (-2) 1 1 (7 / 5) 2 1 1 = none := by
  have h2 : (2 : ℝ) ≠ 0 := by norm_num
  have hpd : (1 : ℝ) + -2 ≠ 0 := by norm_num
  have hk : (7 : ℝ) / 5 ≠ 0 := by norm_num
  have htau : (1 : ℝ) / (1 + -2) = -1 := by norm_num
  have hg : ¬ isclose (-1 : ℝ) 1 := by
    refine not_isclose_one_of_far ?_ ?_
    · rw [show (-1 : ℝ) - 1 = -2 by norm_num, abs_neg, abs_two]
      norm_num
    · rw [abs_neg, abs_one]
      norm_num
  have hq : (2 : ℝ) / (7 / 5) = 10 / 7 := by norm_num
  have hnotint : ∀ n : ℤ, (10 / 7 : ℝ) ≠ (n : ℝ) := by
    intro n hn
    have h1 : (1 : ℝ) < (n : ℝ) := by rw [← hn]; norm_num
    have hlt : (n : ℝ) < 2 := by rw [← hn]; norm_num
    have i1 : (1 : ℤ) < n := by exact_mod_cast h1
    have i2 : n < 2 := by exact_mod_cast hlt
    omega
  have hpow : pyPow (-1 : ℝ) (10 / 7) = none :=
    pyPow_neg_none (by norm_num) hnotint
  simp only [calc_venturi, pyDiv_of_ne h2, pyDiv_of_ne hpd, someBind, htau]
  rw [if_neg hg]
  simp only [pyDiv_of_ne hk, someBind, hq, hpow, noneBind]

/-- C2 amended: for all inputs with `0 < d < D`, `p > 0`, `dp ≥ 0` (the claim
wrongly allowed arbitrary `dp`), `kappa > 1`, `rho ≥ 0` and `C ∈ (0, 1]`,
`calc_venturi` returns a finite value that is `≥ 0`. -/
theorem venturi_valid_inputs_nonneg (dp p rho kappa D d C : ℝ)
    (hd : 0 < d) (hdD : d < D) (hp : 0 < p) (hdp : 0 ≤ dp) (hk : 1 < kappa)
    (hrho : 0 ≤ rho) (hC0 : 0 < C) (hC1 : C ≤ 1) :
    ∃ v, calc_venturi dp p rho kappa D d C = some v ∧ 0 ≤ v := by
  have hD : (0 : ℝ) < D := hd.trans hdD
  have hpd : (0 : ℝ) < p + dp := by linarith
  by_cases hg : isclose (p / (p + dp)) 1
  · exact ⟨0, calc_venturi_guard dp p rho kappa D d C hD.ne' hpd.ne' hg, le_refl 0⟩
  · have htau : 0 < p / (p + dp) := div_pos hp hpd
    have htle : p / (p + dp) ≤ 1 := (div_le_one hpd).mpr (by linarith)
    have hb0 : 0 < d / D := div_pos hd hD
    have hb1 : d / D < 1 := (div_lt_one hD).mpr hdD
    have hb4 : (d / D) ^ 4 < 1 := pow_lt_one₀ hb0.le hb1 (by norm_num)
    have hb4n : 0 ≤ (d / D) ^ 4 := pow_nonneg hb0.le 4
    have ht2k : (p / (p + dp)) ^ (2 / kappa) ≤ 1 :=
      Real.rpow_le_one htau.le htle (by positivity)
    have hprod : (d / D) ^ 4 * (p / (p + dp)) ^ (2 / kappa) < 1 := by
      have := mul_le_of_le_one_right hb4n ht2k
      linarith
    have hden : 1 - (d / D) ^ 4 * (p / (p + dp)) ^ (2 / kappa) ≠ 0 := by
      have hpos : (0 : ℝ) < 1 - (d / D) ^ 4 * (p / (p + dp)) ^ (2 / kappa) := by
        linarith
      exact hpos.ne'
    refine ⟨venturiVal dp p rho kappa D d C,
      calc_venturi_eval dp p rho kappa D d C hD.ne' hpd.ne'
        (show (0 : ℝ) < kappa by linarith).ne'
        (show (0 : ℝ) < kappa - 1 by linarith).ne' htau hden hg, ?_⟩
    unfold venturiVal
    exact mul_nonneg (mul_nonneg (mul_nonneg (mul_nonneg (div_nonneg
      (mul_nonneg (mul_nonneg
        (div_nonneg hC0.le (Real.sqrt_nonneg _)) (Real.sqrt_nonneg _))
        Real.pi_pos.le) (by norm_num)) hd.le) hd.le)
      (Real.sqrt_nonneg _)) (by norm_num)

/-- Witness for the amended C2 at
`dp = 1, p = 1, rho = 1, kappa = 2, D = 2, d = 1, C = 1`. -/
theorem venturi_valid_inputs_nonneg_witness :
    ∃ v, calc_venturi 1 1 1 2 2 1 1 = some v ∧ 0 ≤ v :=
  venturi_valid_inputs_nonneg 1 1 1 2 2 1 1 (by norm_num) (by norm_num)
    (by norm_num) (by norm_num) (by norm_num) (by norm_num) (by norm_num)
    (by norm_num)

/-- C4: with `dp = 0` and valid `p > 0`, `kappa > 1`, `0 < d < D`,
`tau = p/p = 1`, the `isclose(tau, 1.0)` guard fires and `calc_venturi`
returns exactly `0.0`. -/
theorem venturi_zero_dp_guard (p rho kappa D d C : ℝ)
    (hp : 0 < p) (hk : 1 < kappa) (hd : 0 < d) (hdD : d < D) :
    calc_venturi 0 p rho kappa D d C = some 0 := by
  have hD : D ≠ 0 := (hd.trans hdD).ne'
  have hpd : p + 0 ≠ 0 := by rw [add_zero]; exact hp.ne'
  refine calc_venturi_guard 0 p rho kappa D d C hD hpd ?_
  rw [add_zero, div_self hp.ne']
  exact isclose_self 1

/-- Witness for C4 at `p = 1, rho = 1, kappa = 2, D = 2, d = 1, C = 1`. -/
theorem venturi_zero_dp_guard_witness :
    calc_venturi 0 1 1 2 2 1 1 = some 0 :=
  venturi_zero_dp_guard 1 1 2 2 1 1 (by norm_num) (by norm_num) (by norm_num)
    (by norm_num)

/-- C9: a zero throat diameter yields exactly zero flow: for `d = 0`,
`D ≠ 0`, `p > 0`, `dp ≥ 0`, `kappa > 1`, `calc_venturi` returns `some 0`,
whether or not the `tau ≈ 1` guard fires (the mass-flow product contains the
factor `d * d = 0`). -/
theorem venturi_zero_throat_zero_flow (dp p rho kappa D C : ℝ)
    (hD : D ≠ 0) (hp : 0 < p) (hdp : 0 ≤ dp) (hk : 1 < kappa) :
    calc_venturi dp p rho kappa D 0 C = some 0 := by
  have hpd : (0 : ℝ) < p + dp := by linarith
  by_cases hg : isclose (p / (p + dp)) 1
  · exact calc_venturi_guard dp p rho kappa D 0 C hD hpd.ne' hg
  · have htau : 0 < p / (p + dp) := div_pos hp hpd
    have hden : 1 - (0 / D) ^ 4 * (p / (p + dp)) ^ (2 / kappa) ≠ 0 := by
      rw [zero_div]
      norm_num
    rw [calc_venturi_eval dp p rho kappa D 0 C hD hpd.ne'
      (show (0 : ℝ) < kappa by linarith).ne'
      (show (0 : ℝ) < kappa - 1 by linarith).ne' htau hden hg]
    have hval : venturiVal dp p rho kappa D 0 C = 0 := by
      unfold venturiVal
      simp [mul_zero, zero_mul]
    rw [hval]

/-- Witness for C9 at `dp = 1, p = 1, rho = 1, kappa = 2, D = 1, C = 1`. -/
theorem venturi_zero_throat_zero_flow_witness :
    calc_venturi 1 1 1 2 1 0 1 = some 0 :=
  venturi_zero_throat_zero_flow 1 1 1 2 1 1 (by norm_num) (by norm_num)
    (by norm_num) (by norm_num)

/-- C7 counterexample: on the interval `[-1/2, -1/4]` of `dp` values (fixed
`p = 1, rho = 1, kappa = 2, D = 2, d = 1, C = 1`), the `tau ≈ 1` guard does
not fire at either endpoint, yet the returned flow is `0` at both, so
`calc_venturi` is not strictly increasing in `dp` there. -/
theorem venturi_not_strict_mono :
    calc_venturi (-(1 / 2)) 1 1 2 2 1 1 = some 0 ∧
    calc_venturi (-(1 / 4)) 1 1 2 2 1 1 = some 0 ∧
    ¬ isclose (1 / (1 + -(1 / 2))) 1 ∧ ¬ isclose (1 / (1 + -(1 / 4))) 1 ∧
    (-(1 / 2) : ℝ) < -(1 / 4) := by
  have hg1 : ¬ isclose ((1 : ℝ) / (1 + -(1 / 2))) 1 := by
    rw [show (1 : ℝ) / (1 + -(1 / 2)) = 2 by norm_num]
    refine not_isclose_one_of_far ?_ ?_
    · rw [show (2 : ℝ) - 1 = 1 by norm_num, abs_one]
      norm_num
    · rw [abs_of_pos (by norm_num : (0 : ℝ) < 2)]
      norm_num
  have hg2 : ¬ isclose ((1 : ℝ) / (1 + -(1 / 4))) 1 := by
    rw [show (1 : ℝ) / (1 + -(1 / 4)) = 4 / 3 by norm_num]
    refine not_isclose_one_of_far ?_ ?_
    · rw [show (4 : ℝ) / 3 - 1 = 1 / 3 by norm_num,
        abs_of_pos (by norm_num : (0 : ℝ) < 1 / 3)]
      norm_num
    · rw [abs_of_pos (by norm_num : (0 : ℝ) < 4 / 3)]
      norm_num
  have hden1 : 1 - ((1 : ℝ) / 2) ^ 4 *
      ((1 : ℝ) / (1 + -(1 / 2))) ^ ((2 : ℝ) / 2) ≠ 0 := by
    rw [show (2 : ℝ) / 2 = 1 by norm_num, Real.rpow_one]
    norm_num
  have hden2 : 1 - ((1 : ℝ) / 2) ^ 4 *
      ((1 : ℝ) / (1 + -(1 / 4))) ^ ((2 : ℝ) / 2) ≠ 0 := by
    rw [show (2 : ℝ) / 2 = 1 by norm_num, Real.rpow_one]
    norm_num
  refine ⟨?_, ?_, hg1, hg2, by norm_num⟩
  · rw [calc_venturi_eval (-(1 / 2)) 1 1 2 2 1 1 (by norm_num) (by norm_num)
      (by norm_num) (by norm_num) (by norm_num) hden1 hg1]
    have hval : venturiVal (-(1 / 2)) 1 1 2 2 1 1 = 0 := by
      unfold venturiVal
      rw [show max ((-(1 / 2) : ℝ) * 1 * 2) 0 = 0 from max_eq_right (by norm_num),
        Real.sqrt_zero, mul_zero, zero_mul]
    rw [hval]
  · rw [calc_venturi_eval (-(1 / 4)) 1 1 2 2 1 1 (by norm_num) (by norm_num)
      (by norm_num) (by norm_num) (by norm_num) hden2 hg2]
    have hval : venturiVal (-(1 / 4)) 1 1 2 2 1 1 = 0 := by
      unfold venturiVal
      rw [show max ((-(1 / 4) : ℝ) * 1 * 2) 0 = 0 from max_eq_right (by norm_num),
        Real.sqrt_zero, mul_zero, zero_mul]
    rw [hval]

/-- C7 amended: holding the other parameters fixed with `rho ≥ 0`, for every
`dp ≤ 0` on which `calc_venturi` succeeds the returned flow is exactly `0`
(the clamp `max(dp*rho*2, 0)` zeroes the flow), so the function is constant,
not strictly increasing, on any interval of nonpositive `dp`. -/
theorem venturi_nonpos_dp_zero (dp p rho kappa D d C v : ℝ)
    (hrho : 0 ≤ rho) (hdp : dp ≤ 0)
    (h : calc_venturi dp p rho kappa D d C = some v) : v = 0 := by
  have hroot : Real.sqrt (max (dp * rho * 2) 0) = 0 := by
    rw [max_eq_right (by nlinarith : dp * rho * 2 ≤ 0), Real.sqrt_zero]
  unfold calc_venturi at h
  simp only [Option.bind_eq_some] at h
  obtain ⟨beta, hb, tau, ht, h⟩ := h
  by_cases hg : isclose tau 1
  · rw [if_pos hg] at h
    exact (Option.some.inj h).symm
  · rw [if_neg hg] at h
    simp only [Option.bind_eq_some] at h
    obtain ⟨e1, he1, tau2k, ht2k, n1, hn1, n2, hn2, e2, he2, tpow, htpow,
      n3, hn3, q, hq, h⟩ := h
    rw [hroot, mul_zero, zero_mul] at h
    exact (Option.some.inj h).symm

/-- Witness for the amended C7 at
`dp = 0, p = 2, rho = 1, kappa = 2, D = 2, d = 1, C = 1`. -/
theorem venturi_nonpos_dp_zero_witness :
    ∃ v, calc_venturi 0 2 1 2 2 1 1 = some v ∧ v = 0 := by
  have h : calc_venturi 0 2 1 2 2 1 1 = some 0 := by
    refine calc_venturi_guard 0 2 1 2 2 1 1 (by norm_num) (by norm_num) ?_
    rw [show (2 : ℝ) / (2 + 0) = 1 by norm_num]
    exact isclose_self 1
  exact ⟨0, h, venturi_nonpos_dp_zero 0 2 1 2 2 1 1 0 (by norm_num)
    (by norm_num) h⟩

theorem digitChar_isDigit {n : ℕ} (h : n < 10) :
    (Nat.digitChar n).isDigit = true := by
  interval_cases n <;> decide

theorem fixedDigits_length : ∀ k n : ℕ, (fixedDigits k n).length = k := by
  intro k
  induction k with
  | zero => intro n; rfl
  | succ k ih =>
    intro n
    simp [fixedDigits, ih]

theorem mem_fixedDigits_isDigit :
    ∀ k n : ℕ, ∀ c ∈ fixedDigits k n, c.isDigit = true := by
  intro k
  induction k with
  | zero =>
    intro n c hc
    simp [fixedDigits] at hc
  | succ k ih =>
    intro n c hc
    simp only [fixedDigits] at hc
    rcases List.mem_append.mp hc with h | h
    · exact ih _ _ h
    · rw [List.mem_singleton] at h
      subst h
      exact digitChar_isDigit (Nat.mod_lt _ (by norm_num))

theorem mem_natDigitsAux_isDigit :
    ∀ fuel n : ℕ, ∀ c ∈ natDigitsAux fuel n, c.isDigit = true := by
  intro fuel
  induction fuel with
  | zero =>
    intro n c hc
    simp [natDigitsAux] at hc
  | succ fuel ih =>
    intro n c hc
    simp only [natDigitsAux] at hc
    by_cases h : n < 10
    · rw [if_pos h, List.mem_singleton] at hc
      subst hc
      exact digitChar_isDigit h
    · rw [if_neg h] at hc
      rcases List.mem_append.mp hc with h2 | h2
      · exact ih _ _ h2
      · rw [List.mem_singleton] at h2
        subst h2
        exact digitChar_isDigit (Nat.mod_lt _ (by norm_num))

theorem mem_natDigits_isDigit (n : ℕ) : ∀ c ∈ natDigits n, c.isDigit = true :=
  mem_natDigitsAux_isDigit (n + 1) n

theorem isDigit_ne_special {c : Char} (h : c.isDigit = true) :
    c ≠ 'e' ∧ c ≠ 'E' ∧ c ≠ '\n' ∧ c ≠ '.' := by
  refine ⟨?_, ?_, ?_, ?_⟩ <;> (intro hc; subst hc; exact absurd h (by decide))

theorem data_append (s t : String) : (s ++ t).data = s.data ++ t.data := by
  cases s
  cases t
  rfl

theorem mem_format12 (x : ℝ) :
    ∀ c ∈ (format12 x).data, c = '-' ∨ c = '.' ∨ c.isDigit = true := by
  intro c hc
  unfold format12 at hc
  rw [data_append, data_append, data_append] at hc
  rcases List.mem_append.mp hc with h | h
  · rcases List.mem_append.mp h with h2 | h2
    · rcases List.mem_append.mp h2 with h3 | h3
      · split_ifs at h3
        · rw [show ("-" : String).data = ['-'] from rfl] at h3
          exact Or.inl (List.mem_singleton.mp h3)
        · rw [show ("" : String).data = [] from rfl] at h3
          exact absurd h3 (List.not_mem_nil c)
      · rw [show (String.mk (natDigits ((round (x * 10 ^ 12)).natAbs / 10 ^ 12))).data =
            natDigits ((round (x * 10 ^ 12)).natAbs / 10 ^ 12) from rfl] at h3
        exact Or.inr (Or.inr (mem_natDigits_isDigit _ c h3))
    · rw [show ("." : String).data = ['.'] from rfl] at h2
      exact Or.inr (Or.inl (List.mem_singleton.mp h2))
  · rw [show (String.mk (fixedDigits 12 ((round (x * 10 ^ 12)).natAbs % 10 ^ 12))).data =
        fixedDigits 12 ((round (x * 10 ^ 12)).natAbs % 10 ^ 12) from rfl] at h
    exact Or.inr (Or.inr (mem_fixedDigits_isDigit 12 _ c h))

theorem format12_isFixed12 (x : ℝ) : isFixed12 (format12 x) := by
  constructor
  · refine ⟨(if round (x * 10 ^ 12) < 0 then "-" else "") ++
      String.mk (natDigits ((round (x * 10 ^ 12)).natAbs / 10 ^ 12)),
      String.mk (fixedDigits 12 ((round (x * 10 ^ 12)).natAbs % 10 ^ 12)),
      rfl, ?_, ?_, ?_⟩
    · show (fixedDigits 12 ((round (x * 10 ^ 12)).natAbs % 10 ^ 12)).length = 12
      exact fixedDigits_length 12 _
    · intro c hc
      exact mem_fixedDigits_isDigit 12 _ c hc
    · intro hdot
      rw [data_append] at hdot
      rcases List.mem_append.mp hdot with h | h
      · split_ifs at h
        · rw [show ("-" : String).data = ['-'] from rfl] at h
          exact absurd (List.mem_singleton.mp h) (by decide)
        · rw [show ("" : String).data = [] from rfl] at h
          exact absurd h (List.not_mem_nil _)
      · have := mem_natDigits_isDigit _ _ h
        exact absurd this (by decide)
  · intro c hc
    rcases mem_format12 x c hc with h | h | h
    · subst h
      refine ⟨by decide, by decide, by decide⟩
    · subst h
      refine ⟨by decide, by decide, by decide⟩
    · exact ⟨(isDigit_ne_special h).1, (isDigit_ne_special h).2.1,
        (isDigit_ne_special h).2.2.1⟩

theorem format12_zero : format12 0 = "0.000000000000" := by
  unfold format12
  rw [show round ((0 : ℝ) * 10 ^ 12) = (0 : ℤ) by rw [zero_mul, round_zero]]
  decide

theorem renderErr_ne (e : PErr) : renderErr e ≠ "" := by
  intro hc
  have h0 := congrArg String.data hc
  unfold renderErr at h0
  rw [data_append, data_append,
    show ("error: " : String).data = 'e' :: ("rror: " : String).data from rfl,
    List.cons_append, List.cons_append] at h0
  exact List.cons_ne_nil _ _ h0

/-- C5 counterexample: a duplicated flag is NOT a CLI error.  `argparse`
`store` actions overwrite, the last occurrence wins, so
`simplified --dp 1 --dp 2 --rho 0 --Cv 1` exits with status 0 and prints a
result line, while the claim requires a non-zero exit and empty stdout. -/
theorem main_duplicate_flag_accepted :
    main ["simplified", "--dp", "1", "--dp", "2", "--rho", "0", "--Cv", "1"] =
      (0, "0.000000000000\n", "") := by
  have hp : parseArgs ["simplified", "--dp", "1", "--dp", "2", "--rho", "0",
      "--Cv", "1"] = Except.ok (Cmd.simplified ⟨false, 2, 0, 0⟩
      ⟨false, 0, 0, 0⟩ ⟨false, 1, 0, 0⟩) := by decide
  have hv : calc_simplified (PyFloatVal.toReal ⟨false, 2, 0, 0⟩)
      (PyFloatVal.toReal ⟨false, 0, 0, 0⟩)
      (PyFloatVal.toReal ⟨false, 1, 0, 0⟩) = 0 := by
    unfold calc_simplified PyFloatVal.toReal
    norm_num
  simp only [main, hp, evalCmd]
  rw [hv, format12_zero]
  rfl

/-- C5 amended: whenever argument parsing fails (missing or non-numeric
required flag, or unrecognized subcommand), the program exits with status 2,
writes a nonempty error message to stderr, and writes nothing to stdout.
Duplicate flags, however, are not errors: the last occurrence silently wins. -/
theorem main_parse_error_behavior (argv : List String) (e : PErr)
    (h : parseArgs argv = Except.error e) :
    main argv = (2, "", renderErr e) ∧ renderErr e ≠ "" := by
  constructor
  · unfold main
    rw [h]
  · exact renderErr_ne e

/-- Witness for the amended C5: the spec's CLI scenario, `venturi` with the
`--C` flag omitted. -/
theorem main_parse_error_behavior_witness :
    main ["venturi", "--dp", "5000", "--p", "101325", "--rho", "1.2",
      "--kappa", "1.4", "--D", "0.1", "--d", "0.05"] =
      (2, "", renderErr (PErr.missingFlag "venturi" "--C")) ∧
    renderErr (PErr.missingFlag "venturi" "--C") ≠ "" :=
  main_parse_error_behavior _ _ (by decide)

/-- C6 counterexample: an invocation whose flags all parse (`venturi` with
`dp = 1, p = -1`, so `p + dp = 0`) makes `calc_venturi` raise
`ZeroDivisionError`; the program exits with status 1 and stdout stays empty,
while the claim requires exit 0 and one result line for every successful
parse. -/
theorem main_parse_ok_calculation_raises :
    parseArgs ["venturi", "--dp", "1", "--p", "-1", "--rho", "1", "--kappa",
      "2", "--D", "1", "--d", "1", "--C", "1"] =
      Except.ok (Cmd.venturi ⟨false, 1, 0, 0⟩ ⟨true, 1, 0, 0⟩ ⟨false, 1, 0, 0⟩
        ⟨false, 2, 0, 0⟩ ⟨false, 1, 0, 0⟩ ⟨false, 1, 0, 0⟩ ⟨false, 1, 0, 0⟩) ∧
    main ["venturi", "--dp", "1", "--p", "-1", "--rho", "1", "--kappa", "2",
      "--D", "1", "--d", "1", "--C", "1"] = (1, "", tracebackMsg) := by
  have hp : parseArgs ["venturi", "--dp", "1", "--p", "-1", "--rho", "1",
      "--kappa", "2", "--D", "1", "--d", "1", "--C", "1"] =
      Except.ok (Cmd.venturi ⟨false, 1, 0, 0⟩ ⟨true, 1, 0, 0⟩ ⟨false, 1, 0, 0⟩
        ⟨false, 2, 0, 0⟩ ⟨false, 1, 0, 0⟩ ⟨false, 1, 0, 0⟩
        ⟨false, 1, 0, 0⟩) := by decide
  refine ⟨hp, ?_⟩
  have h1 : PyFloatVal.toReal ⟨false, 1, 0, 0⟩ = 1 := by
    unfold PyFloatVal.toReal
    norm_num
  have h2 : PyFloatVal.toReal ⟨true, 1, 0, 0⟩ = -1 := by
    unfold PyFloatVal.toReal
    norm_num
  have h3 : PyFloatVal.toReal ⟨false, 2, 0, 0⟩ = 2 := by
    unfold PyFloatVal.toReal
    norm_num
  have hv : evalCmd (Cmd.venturi ⟨false, 1, 0, 0⟩ ⟨true, 1, 0, 0⟩
      ⟨false, 1, 0, 0⟩ ⟨false, 2, 0, 0⟩ ⟨false, 1, 0, 0⟩ ⟨false, 1, 0, 0⟩
      ⟨false, 1, 0, 0⟩) = none := by
    simp only [evalCmd, h1, h2, h3]
    have hpd : (-1 : ℝ) + 1 = 0 := by norm_num
    simp only [calc_venturi, pyDiv_of_ne (one_ne_zero : (1 : ℝ) ≠ 0), someBind,
      hpd, pyDiv_zero, noneBind]
  simp only [main, hp, hv]

/-- C6 amended: for every invocation that parses successfully AND whose flow
computation does not raise (the `simplified` model always succeeds; `venturi`
succeeds away from its singular inputs), the program exits with status 0 and
stdout is exactly one line: the value in fixed-point with 12 digits after
the decimal point, never in scientific `e`-form. -/
theorem main_success_output (argv : List String) (c : Cmd) (v : ℝ)
    (hp : parseArgs argv = Except.ok c) (hv : evalCmd c = some v) :
    main argv = (0, format12 v ++ "\n", "") ∧ isFixed12 (format12 v) := by
  constructor
  · simp only [main, hp, hv]
  · exact format12_isFixed12 v

/-- Witness for the amended C6 at `simplified --dp 1 --rho 0 --Cv 1`. -/
theorem main_success_output_witness :
    main ["simplified", "--dp", "1", "--rho", "0", "--Cv", "1"] =
      (0, format12 (calc_simplified (PyFloatVal.toReal ⟨false, 1, 0, 0⟩)
        (PyFloatVal.toReal ⟨false, 0, 0, 0⟩)
        (PyFloatVal.toReal ⟨false, 1, 0, 0⟩)) ++ "\n", "") ∧
    isFixed12 (format12 (calc_simplified (PyFloatVal.toReal ⟨false, 1, 0, 0⟩)
      (PyFloatVal.toReal ⟨false, 0, 0, 0⟩)
      (PyFloatVal.toReal ⟨false, 1, 0, 0⟩))) :=
  main_success_output ["simplified", "--dp", "1", "--rho", "0", "--Cv", "1"]
    (Cmd.simplified ⟨false, 1, 0, 0⟩ ⟨false, 0, 0, 0⟩ ⟨false, 1, 0, 0⟩) _
    (by decide) rfl

/-- C8: the program is deterministic; in this pure embedding the output of
`main`, `calc_venturi` and `calc_simplified` depends on nothing but the
supplied arguments: equal inputs give identical results. -/
theorem program_deterministic :
    (∀ x y : List String, x = y → main x = main y) ∧
    (∀ dp₁ p₁ rho₁ k₁ D₁ d₁ C₁ dp₂ p₂ rho₂ k₂ D₂ d₂ C₂ : ℝ,
      dp₁ = dp₂ → p₁ = p₂ → rho₁ = rho₂ → k₁ = k₂ → D₁ = D₂ → d₁ = d₂ →
      C₁ = C₂ →
      calc_venturi dp₁ p₁ rho₁ k₁ D₁ d₁ C₁ =
        calc_venturi dp₂ p₂ rho₂ k₂ D₂ d₂ C₂) ∧
    (∀ a₁ b₁ c₁ a₂ b₂ c₂ : ℝ, a₁ = a₂ → b₁ = b₂ → c₁ = c₂ →
      calc_simplified a₁ b₁ c₁ = calc_simplified a₂ b₂ c₂) := by
  refine ⟨fun x y h => by rw [h], ?_, ?_⟩
  · intro dp₁ p₁ rho₁ k₁ D₁ d₁ C₁ dp₂ p₂ rho₂ k₂ D₂ d₂ C₂ h1 h2 h3 h4 h5 h6 h7
    rw [h1, h2, h3, h4, h5, h6, h7]
  · intro a₁ b₁ c₁ a₂ b₂ c₂ h1 h2 h3
    rw [h1, h2, h3]

/-- Witness for C8 at a concrete argument list and concrete numeric inputs. -/
theorem program_deterministic_witness :
    main ["venturi"] = main ["venturi"] ∧
    calc_venturi 1 2 3 4 5 6 7 = calc_venturi 1 2 3 4 5 6 7 :=
  ⟨program_deterministic.1 ["venturi"] ["venturi"] rfl,
   program_deterministic.2.1 1 2 3 4 5 6 7 1 2 3 4 5 6 7 rfl rfl rfl rfl rfl
     rfl rfl⟩

end DiffPressure
